import Mathlib

/-!
Verification of the register-mapped UART device protocol of the
stepper_control_system firmware (pico_firmware/src/uart_protocol.c,
pico_firmware/src/registers.h).

Bytes are modelled as natural numbers; every byte read from the wire or
stored in the register map is a value below 256, but the definitions are
total over Nat and the C arithmetic (int promotion of uint8_t operands,
XOR on bytes) is exact on Nat.  The register map is a list of 46 cells
(REGISTER_MAP_SIZE = REG_MOTOR2_CONFIG + 1 = 0x2E).  The UART input is a
list of bytes; one invocation of handle_uart_rx consumes a prefix of it.
A blocking read that can never complete (fewer bytes available than the
frame declares) is modelled as the result none.
-/

/-- REGISTER_MAP_SIZE = REG_MOTOR2_CONFIG + 1 = 0x2D + 1 = 46 (registers.h). -/
def REGISTER_MAP_SIZE : Nat := 46

/-- CMD_READ = 0x01 (uart_protocol.h). -/
def CMD_READ : Nat := 1

/-- CMD_WRITE = 0x02 (uart_protocol.h). -/
def CMD_WRITE : Nat := 2

/-- Simple XOR checksum: `checksum = 0; for i in [0,len) checksum ^= data[i]`
(uart_protocol.c, calculate_checksum). -/
def calculate_checksum (data : List Nat) : Nat :=
  data.foldl (fun a b => a ^^^ b) 0

/-- The read loop of the READ branch: `response[2+i] = registers[reg_addr+i]`
for `i` in `[0, data_len)` (uart_protocol.c line 86-88). -/
def read_registers (regs : List Nat) (addr len : Nat) : List Nat :=
  (List.range len).map (fun i => regs.getD (addr + i) 0)

/-- The write loop of the WRITE branch: `registers[reg_addr+i] = data_buffer[i]`
for `i` in `[0, data_len)` (uart_protocol.c line 137-139). -/
def write_registers (regs : List Nat) (addr : Nat) : List Nat → List Nat
  | [] => regs
  | d :: ds => write_registers (regs.set addr d) (addr + 1) ds

/-- The READ branch of handle_uart_rx (uart_protocol.c lines 64-97): read
one checksum byte (blocking: none when the stream is empty), silently drop
the frame on a mismatch, otherwise respond [addr, len, data..., checksum].
A nonempty stream rest has first byte rest.getD 0 0 and remainder
rest.drop 1. -/
def handle_read_cmd (cmd addr len : Nat) (rest regs : List Nat) :
    Option (List Nat × List Nat × List Nat) :=
  if 1 ≤ rest.length then
    let checksum_rx := rest.getD 0 0
    let rest2 := rest.drop 1
    if calculate_checksum [cmd, addr, len] ≠ checksum_rx then
      some (rest2, [], regs)
    else
      let response := addr :: len :: read_registers regs addr len
      some (rest2, response ++ [calculate_checksum response], regs)
  else none

/-- The WRITE branch of handle_uart_rx (uart_protocol.c lines 100-150):
read len payload bytes and one checksum byte (blocking: none when fewer
are available), NACK on a mismatch, otherwise write the payload into the
map and ACK. -/
def handle_write_cmd (cmd addr len : Nat) (rest regs : List Nat) :
    Option (List Nat × List Nat × List Nat) :=
  if len + 1 ≤ rest.length then
    let data := rest.take len
    let checksum_rx := rest.getD len 0
    let rest2 := rest.drop (len + 1)
    let c0 := (cmd ^^^ addr) ^^^ len
    let checksum_calc :=
      if len > 0 then calculate_checksum data ^^^ c0 else c0
    if checksum_calc ≠ checksum_rx then
      some (rest2, [addr, 255, calculate_checksum [addr, 255]], regs)
    else
      let regs2 := if len > 0 then write_registers regs addr data else regs
      some (rest2, [addr, 0, calculate_checksum [addr, 0]], regs2)
  else none

/-- Processing of one frame whose 3-byte header has been read
(uart_protocol.c lines 28-156): the two header-validation checks with
their stream-realignment discards, then dispatch on the command byte. -/
def handle_frame (cmd addr len : Nat) (rest regs : List Nat) :
    Option (List Nat × List Nat × List Nat) :=
  -- header validation, first check (line 34)
  if addr ≥ REGISTER_MAP_SIZE ∨ addr + len > REGISTER_MAP_SIZE then
    if cmd = CMD_READ then                     -- discard the checksum byte
      if 1 ≤ rest.length then some (rest.drop 1, [], regs) else none
    else if cmd = CMD_WRITE then
      if len ≤ 16 then                         -- discard data+checksum
        if len + 1 ≤ rest.length then some (rest.drop (len + 1), [], regs)
        else none
      else some (rest, [], regs)
    else some (rest, [], regs)
  -- header validation, second check (line 49)
  else if len > 16 then
    if cmd = CMD_READ then                     -- discard the checksum byte
      if 1 ≤ rest.length then some (rest.drop 1, [], regs) else none
    else some (rest, [], regs)
  -- READ command (lines 64-97)
  else if cmd = CMD_READ then handle_read_cmd cmd addr len rest regs
  -- WRITE command (lines 100-150)
  else if cmd = CMD_WRITE then handle_write_cmd cmd addr len rest regs
  -- unknown command (lines 151-156)
  else some (rest, [], regs)

/-- One invocation of handle_uart_rx (uart_protocol.c lines 17-159) as a
function from the pending UART input and the register map to the remaining
input, the emitted response bytes, and the new register map.  The result is
none when a blocking uart_read_blocking can never return because the input
stream holds fewer bytes than the call requests (here: inside the 3-byte
header read). -/
def handle_uart_rx (input : List Nat) (regs : List Nat) :
    Option (List Nat × List Nat × List Nat) :=
  match input with
  | [] => some ([], [], regs)                  -- uart_is_readable is false
  | cmd :: addr :: len :: rest => handle_frame cmd addr len rest regs
  | _ => none                                  -- blocked inside the header read

/-- READ_U16_REGISTER macro (registers.h): little-endian 16-bit decode. -/
def READ_U16_REGISTER (regs : List Nat) (addr : Nat) : Nat :=
  regs.getD addr 0 ||| (regs.getD (addr + 1) 0 <<< 8)

/-- WRITE_U16_REGISTER macro (registers.h): little-endian 16-bit encode. -/
def WRITE_U16_REGISTER (regs : List Nat) (addr : Nat) (value : Nat) : List Nat :=
  ((regs.set addr (value &&& 255)).set (addr + 1) ((value >>> 8) &&& 255))

/-- READ_U32_REGISTER macro (registers.h): little-endian 32-bit decode. -/
def READ_U32_REGISTER (regs : List Nat) (addr : Nat) : Nat :=
  regs.getD addr 0 ||| (regs.getD (addr + 1) 0 <<< 8) |||
    (regs.getD (addr + 2) 0 <<< 16) ||| (regs.getD (addr + 3) 0 <<< 24)

/-- WRITE_U32_REGISTER macro (registers.h): little-endian 32-bit encode. -/
def WRITE_U32_REGISTER (regs : List Nat) (addr : Nat) (value : Nat) : List Nat :=
  ((((regs.set addr (value &&& 255)).set
      (addr + 1) ((value >>> 8) &&& 255)).set
      (addr + 2) ((value >>> 16) &&& 255)).set
      (addr + 3) ((value >>> 24) &&& 255))

/-- Flip bit k of the byte at position p of a byte list. -/
def flip_byte (l : List Nat) (p k : Nat) : List Nat :=
  l.set p ((l.getD p 0) ^^^ (2 ^ k))

/-- A processing outcome counts as a rejection when the engine either emits
nothing or emits a NACK (second response byte 0xFF); it is never the ACK
(second byte 0x00) nor a read data response (second byte = len ≤ 16). -/
def rejection_out (out : List Nat) : Prop :=
  out = [] ∨ out.getD 1 0 = 255

/-- The two header-validation guards of handle_uart_rx (lines 34 and 49),
satisfied exactly when neither early return is taken. -/
def header_checks (addr len : Nat) : Prop :=
  ¬ (addr ≥ REGISTER_MAP_SIZE ∨ addr + len > REGISTER_MAP_SIZE) ∧ ¬ len > 16

/-! ### Checksum basics -/

theorem foldl_xor_eq (c : Nat) (l : List Nat) :
    l.foldl (fun a b => a ^^^ b) c = c ^^^ l.foldl (fun a b => a ^^^ b) 0 := by
  induction l generalizing c with
  | nil => simp
  | cons x xs ih =>
    simp only [List.foldl_cons]
    rw [ih (c ^^^ x), ih (0 ^^^ x), Nat.zero_xor, Nat.xor_assoc]

theorem checksum_nil : calculate_checksum [] = 0 := rfl

theorem checksum_cons (x : Nat) (l : List Nat) :
    calculate_checksum (x :: l) = x ^^^ calculate_checksum l := by
  simp only [calculate_checksum, List.foldl_cons, Nat.zero_xor]
  exact foldl_xor_eq x l

theorem checksum_append (a b : List Nat) :
    calculate_checksum (a ++ b) =
      calculate_checksum a ^^^ calculate_checksum b := by
  simp only [calculate_checksum, List.foldl_append]
  exact foldl_xor_eq _ b

theorem checksum_perm {a b : List Nat} (h : a.Perm b) :
    calculate_checksum a = calculate_checksum b := by
  induction h with
  | nil => rfl
  | cons x _ ih => rw [checksum_cons, checksum_cons, ih]
  | swap x y l =>
    rw [checksum_cons, checksum_cons, checksum_cons, checksum_cons,
      ← Nat.xor_assoc, ← Nat.xor_assoc, Nat.xor_comm y x]
  | trans _ _ ih1 ih2 => rw [ih1, ih2]

/-! ### List helpers -/

theorem take_append_len (a b : List Nat) : (a ++ b).take a.length = a := by
  induction a with
  | nil => rfl
  | cons x xs ih => simp [ih]

theorem drop_append_len (a b : List Nat) : (a ++ b).drop a.length = b := by
  induction a with
  | nil => rfl
  | cons x xs ih => simp [ih]

theorem drop_append_succ (a b : List Nat) (x : Nat) :
    (a ++ x :: b).drop (a.length + 1) = b := by
  induction a with
  | nil => rfl
  | cons y ys ih => simp [ih]

theorem getD_append_len (a b : List Nat) (x d : Nat) :
    (a ++ x :: b).getD a.length d = x := by
  induction a with
  | nil => rfl
  | cons y ys ih => simpa using ih

theorem getD_set_ne (l : List Nat) (i j x : Nat) (h : i ≠ j) :
    (l.set i x).getD j 0 = l.getD j 0 := by
  simp [List.getD_eq_getElem?_getD, List.getElem?_set_ne h]

theorem getD_set_self (l : List Nat) (i x : Nat) (h : i < l.length) :
    (l.set i x).getD i 0 = x := by
  simp [List.getD_eq_getElem?_getD, List.getElem?_set_self h]

/-! ### write_registers / read_registers -/

theorem write_registers_length (data : List Nat) (regs : List Nat) (addr : Nat) :
    (write_registers regs addr data).length = regs.length := by
  induction data generalizing regs addr with
  | nil => rfl
  | cons d ds ih =>
    show (write_registers (regs.set addr d) (addr + 1) ds).length = _
    rw [ih, List.length_set]

theorem write_registers_getD_outside (data : List Nat) (regs : List Nat)
    (addr j : Nat) (h : j < addr ∨ addr + data.length ≤ j) :
    (write_registers regs addr data).getD j 0 = regs.getD j 0 := by
  induction data generalizing regs addr with
  | nil => rfl
  | cons d ds ih =>
    show (write_registers (regs.set addr d) (addr + 1) ds).getD j 0 = _
    rw [ih (regs.set addr d) (addr + 1) (by simp at h ⊢; omega),
      getD_set_ne _ _ _ _ (by simp at h; omega)]

theorem write_registers_getD_inside (data : List Nat) (regs : List Nat)
    (addr i : Nat) (hi : i < data.length) (hb : addr + data.length ≤ regs.length) :
    (write_registers regs addr data).getD (addr + i) 0 = data.getD i 0 := by
  induction data generalizing regs addr i with
  | nil => simp at hi
  | cons d ds ih =>
    match i with
    | 0 =>
      show (write_registers (regs.set addr d) (addr + 1) ds).getD (addr + 0) 0 = d
      rw [write_registers_getD_outside _ _ _ _ (by omega)]
      exact getD_set_self _ _ _ (by simp at hb ⊢; omega)
    | i + 1 =>
      show (write_registers (regs.set addr d) (addr + 1) ds).getD (addr + (i + 1)) 0
        = (d :: ds).getD (i + 1) 0
      have hi' : i < ds.length := by simp at hi; omega
      have hb' : addr + 1 + ds.length ≤ (regs.set addr d).length := by
        simp at hb ⊢; omega
      have := ih (regs.set addr d) (addr + 1) i hi' hb'
      rw [show addr + (i + 1) = addr + 1 + i by omega, this]
      rfl

theorem read_registers_length (regs : List Nat) (addr len : Nat) :
    (read_registers regs addr len).length = len := by
  simp [read_registers]

theorem read_registers_getD (regs : List Nat) (addr len i : Nat) (hi : i < len) :
    (read_registers regs addr len).getD i 0 = regs.getD (addr + i) 0 := by
  simp [read_registers, List.getD_eq_getElem?_getD, List.getElem?_map,
    List.getElem?_range hi]

theorem read_write_roundtrip (data : List Nat) (regs : List Nat) (addr : Nat)
    (hb : addr + data.length ≤ regs.length) :
    read_registers (write_registers regs addr data) addr data.length = data := by
  apply List.ext_getElem
  · exact read_registers_length _ _ _
  · intro i h1 h2
    have hi : i < data.length := h2
    have e1 : (read_registers (write_registers regs addr data) addr data.length)[i]
        = (read_registers (write_registers regs addr data) addr data.length).getD i 0 := by
      rw [List.getD_eq_getElem?_getD, List.getElem?_eq_getElem h1]
      rfl
    have e2 : data[i] = data.getD i 0 := by
      rw [List.getD_eq_getElem?_getD, List.getElem?_eq_getElem h2]
      rfl
    rw [e1, e2, read_registers_getD _ _ _ _ hi,
      write_registers_getD_inside data regs addr i hi hb]

/-! ### Branch evaluation lemmas for handle_uart_rx -/

theorem cmd_write_ne_read : CMD_WRITE ≠ CMD_READ := by decide

theorem handle_read_eq (addr len ck : Nat) (rest regs : List Nat)
    (ha : addr < REGISTER_MAP_SIZE) (hb : addr + len ≤ REGISTER_MAP_SIZE)
    (hl : len ≤ 16) :
    handle_uart_rx (CMD_READ :: addr :: len :: ck :: rest) regs =
      some (rest,
        if calculate_checksum [CMD_READ, addr, len] = ck then
          (addr :: len :: read_registers regs addr len) ++
            [calculate_checksum (addr :: len :: read_registers regs addr len)]
        else [], regs) := by
  have h1 : ¬ (addr ≥ REGISTER_MAP_SIZE ∨ addr + len > REGISTER_MAP_SIZE) := by
    omega
  have h2 : ¬ len > 16 := by omega
  by_cases hc : calculate_checksum [CMD_READ, addr, len] = ck
  · simp [handle_uart_rx, handle_frame, handle_read_cmd, handle_write_cmd, h1, h2, hc]
  · simp [handle_uart_rx, handle_frame, handle_read_cmd, handle_write_cmd, h1, h2, hc]

theorem checksum_write_frame (addr len : Nat) (payload : List Nat) :
    calculate_checksum (CMD_WRITE :: addr :: len :: payload) =
      calculate_checksum payload ^^^ ((CMD_WRITE ^^^ addr) ^^^ len) := by
  rw [checksum_cons, checksum_cons, checksum_cons,
    Nat.xor_comm (calculate_checksum payload) ((CMD_WRITE ^^^ addr) ^^^ len),
    Nat.xor_assoc, Nat.xor_assoc]

theorem handle_write_eq (addr len ck : Nat) (payload rest regs : List Nat)
    (hp : payload.length = len) (ha : addr < REGISTER_MAP_SIZE)
    (hb : addr + len ≤ REGISTER_MAP_SIZE) (hl : len ≤ 16) :
    handle_uart_rx (CMD_WRITE :: addr :: len :: (payload ++ ck :: rest)) regs =
      some (rest,
        if calculate_checksum (CMD_WRITE :: addr :: len :: payload) = ck then
          [addr, 0, calculate_checksum [addr, 0]]
        else [addr, 255, calculate_checksum [addr, 255]],
        if calculate_checksum (CMD_WRITE :: addr :: len :: payload) = ck then
          write_registers regs addr payload
        else regs) := by
  have h1 : ¬ (addr ≥ REGISTER_MAP_SIZE ∨ addr + len > REGISTER_MAP_SIZE) := by
    omega
  have h2 : ¬ len > 16 := by omega
  have hlen2 : len + 1 ≤ (payload ++ ck :: rest).length := by
    simp [hp]
  have ht : (payload ++ ck :: rest).take len = payload := by
    rw [← hp]; exact take_append_len _ _
  have hg : (payload ++ ck :: rest).getD len 0 = ck := by
    rw [← hp]; exact getD_append_len _ _ _ _
  have hd : (payload ++ ck :: rest).drop (len + 1) = rest := by
    rw [← hp]; exact drop_append_succ _ _ _
  have hcond :
      (if len > 0 then
          calculate_checksum payload ^^^ ((CMD_WRITE ^^^ addr) ^^^ len)
        else (CMD_WRITE ^^^ addr) ^^^ len) =
        calculate_checksum (CMD_WRITE :: addr :: len :: payload) := by
    by_cases h0 : len > 0
    · rw [if_pos h0, checksum_write_frame]
    · have hz : len = 0 := by omega
      have hpz : payload = [] := List.eq_nil_of_length_eq_zero (by omega)
      subst hz; subst hpz
      rw [if_neg h0, checksum_write_frame, checksum_nil, Nat.zero_xor]
  by_cases hc : calculate_checksum (CMD_WRITE :: addr :: len :: payload) = ck
  · have hw : (if len > 0 then write_registers regs addr payload else regs)
        = write_registers regs addr payload := by
      by_cases h0 : len > 0
      · rw [if_pos h0]
      · have hz : len = 0 := by omega
        have hpz : payload = [] := List.eq_nil_of_length_eq_zero (by omega)
        subst hpz; rw [if_neg h0]; rfl
    simp only [handle_uart_rx, handle_frame, handle_read_cmd, handle_write_cmd, h1, if_false, h2, cmd_write_ne_read, hlen2,
      if_true, ht, hg, hd, hcond, hc, hw]
    simp [hc]
  · simp only [handle_uart_rx, handle_frame, handle_read_cmd, handle_write_cmd, h1, if_false, h2, cmd_write_ne_read, hlen2,
      if_true, ht, hg, hd, hcond, hc]
    simp [hc]

theorem handle_reject_bounds_read (addr len x : Nat) (rest regs : List Nat)
    (hb : addr ≥ REGISTER_MAP_SIZE ∨ addr + len > REGISTER_MAP_SIZE) :
    handle_uart_rx (CMD_READ :: addr :: len :: x :: rest) regs =
      some (rest, [], regs) := by
  simp [handle_uart_rx, handle_frame, handle_read_cmd, handle_write_cmd, hb]

theorem handle_reject_bounds_write (addr len : Nat) (rest regs : List Nat)
    (hb : addr ≥ REGISTER_MAP_SIZE ∨ addr + len > REGISTER_MAP_SIZE)
    (hl : len ≤ 16) (hr : len + 1 ≤ rest.length) :
    handle_uart_rx (CMD_WRITE :: addr :: len :: rest) regs =
      some (rest.drop (len + 1), [], regs) := by
  simp [handle_uart_rx, handle_frame, handle_read_cmd, handle_write_cmd, hb, cmd_write_ne_read, hl, hr]

theorem handle_reject_bounds_write_big (addr len : Nat) (rest regs : List Nat)
    (hb : addr ≥ REGISTER_MAP_SIZE ∨ addr + len > REGISTER_MAP_SIZE)
    (hl : ¬ len ≤ 16) :
    handle_uart_rx (CMD_WRITE :: addr :: len :: rest) regs =
      some (rest, [], regs) := by
  simp [handle_uart_rx, handle_frame, handle_read_cmd, handle_write_cmd, hb, cmd_write_ne_read, hl]

theorem handle_reject_bounds_other (cmd addr len : Nat) (rest regs : List Nat)
    (hb : addr ≥ REGISTER_MAP_SIZE ∨ addr + len > REGISTER_MAP_SIZE)
    (hcr : cmd ≠ CMD_READ) (hcw : cmd ≠ CMD_WRITE) :
    handle_uart_rx (cmd :: addr :: len :: rest) regs =
      some (rest, [], regs) := by
  simp [handle_uart_rx, handle_frame, handle_read_cmd, handle_write_cmd, hb, hcr, hcw]

theorem handle_reject_len_read (addr len x : Nat) (rest regs : List Nat)
    (h1 : ¬ (addr ≥ REGISTER_MAP_SIZE ∨ addr + len > REGISTER_MAP_SIZE))
    (hlen : len > 16) :
    handle_uart_rx (CMD_READ :: addr :: len :: x :: rest) regs =
      some (rest, [], regs) := by
  simp [handle_uart_rx, handle_frame, handle_read_cmd, handle_write_cmd, h1, hlen]

theorem handle_reject_len_other (cmd addr len : Nat) (rest regs : List Nat)
    (h1 : ¬ (addr ≥ REGISTER_MAP_SIZE ∨ addr + len > REGISTER_MAP_SIZE))
    (hlen : len > 16) (hcr : cmd ≠ CMD_READ) :
    handle_uart_rx (cmd :: addr :: len :: rest) regs =
      some (rest, [], regs) := by
  simp [handle_uart_rx, handle_frame, handle_read_cmd, handle_write_cmd, h1, hlen, hcr]

theorem handle_unknown_eq (cmd addr len : Nat) (rest regs : List Nat)
    (h1 : ¬ (addr ≥ REGISTER_MAP_SIZE ∨ addr + len > REGISTER_MAP_SIZE))
    (h2 : ¬ len > 16) (hcr : cmd ≠ CMD_READ) (hcw : cmd ≠ CMD_WRITE) :
    handle_uart_rx (cmd :: addr :: len :: rest) regs =
      some (rest, [], regs) := by
  simp [handle_uart_rx, handle_frame, handle_read_cmd, handle_write_cmd, h1, h2, hcr, hcw]

/-! ### Bit-flip helpers -/

theorem xor_two_pow_ne (x k : Nat) : x ^^^ 2 ^ k ≠ x := by
  intro h
  have h0 : x ^^^ 2 ^ k = x ^^^ 0 := by rw [Nat.xor_zero]; exact h
  have h1 : 2 ^ k = 0 := Nat.xor_right_inj.mp h0
  have h2 : 0 < 2 ^ k := Nat.pos_pow_of_pos k (by omega)
  omega

theorem flip_byte_cons_zero (c : Nat) (t : List Nat) (k : Nat) :
    flip_byte (c :: t) 0 k = (c ^^^ 2 ^ k) :: t := rfl

theorem flip_byte_cons_succ (c : Nat) (t : List Nat) (p k : Nat) :
    flip_byte (c :: t) (p + 1) k = c :: flip_byte t p k := rfl

theorem flip_byte_append_left (a b : List Nat) (i k : Nat) (h : i < a.length) :
    flip_byte (a ++ b) i k = flip_byte a i k ++ b := by
  induction a generalizing i with
  | nil => simp at h
  | cons x xs ih =>
    match i with
    | 0 => rfl
    | i + 1 =>
      have := ih i (by simp at h; omega)
      simp only [List.cons_append, flip_byte_cons_succ, this]

theorem flip_byte_append_ck (a : List Nat) (x k : Nat) :
    flip_byte (a ++ [x]) a.length k = a ++ [x ^^^ 2 ^ k] := by
  induction a with
  | nil => rfl
  | cons y ys ih => simp only [List.cons_append, List.length_cons,
      flip_byte_cons_succ, ih]

theorem flip_byte_length (l : List Nat) (p k : Nat) :
    (flip_byte l p k).length = l.length := by
  simp [flip_byte]

theorem checksum_flip (l : List Nat) (i k : Nat) (h : i < l.length) :
    calculate_checksum (flip_byte l i k) = calculate_checksum l ^^^ 2 ^ k := by
  induction l generalizing i with
  | nil => simp at h
  | cons x xs ih =>
    match i with
    | 0 =>
      rw [flip_byte_cons_zero, checksum_cons, checksum_cons, Nat.xor_assoc,
        Nat.xor_comm (2 ^ k) (calculate_checksum xs), ← Nat.xor_assoc]
    | i + 1 =>
      rw [flip_byte_cons_succ, checksum_cons, checksum_cons,
        ih i (by simp at h; omega), ← Nat.xor_assoc]

/-! ### Global invariants of one invocation -/

theorem rest_decomposition (l : Nat) (rest : List Nat) (h : l + 1 ≤ rest.length) :
    rest = rest.take l ++ rest.getD l 0 :: rest.drop (l + 1) := by
  have hl : l < rest.length := by omega
  have hg : rest.getD l 0 = rest[l] := by
    rw [List.getD_eq_getElem?_getD, List.getElem?_eq_getElem hl]
    rfl
  rw [hg, ← List.drop_eq_getElem_cons hl, List.take_append_drop]

theorem handle_write_general (addr len : Nat) (rest regs : List Nat)
    (ha : addr < REGISTER_MAP_SIZE) (hb : addr + len ≤ REGISTER_MAP_SIZE)
    (hl : len ≤ 16) (hr : len + 1 ≤ rest.length) :
    handle_uart_rx (CMD_WRITE :: addr :: len :: rest) regs =
      some (rest.drop (len + 1),
        if calculate_checksum (CMD_WRITE :: addr :: len :: rest.take len) =
            rest.getD len 0 then
          [addr, 0, calculate_checksum [addr, 0]]
        else [addr, 255, calculate_checksum [addr, 255]],
        if calculate_checksum (CMD_WRITE :: addr :: len :: rest.take len) =
            rest.getD len 0 then
          write_registers regs addr (rest.take len)
        else regs) := by
  have hlen : (rest.take len).length = len := by
    rw [List.length_take]; omega
  have hd := rest_decomposition len rest hr
  conv_lhs => rw [hd]
  rw [handle_write_eq addr len (rest.getD len 0) (rest.take len)
    (rest.drop (len + 1)) regs hlen ha hb hl]

theorem handle_preserves_length (input regs : List Nat)
    (r : List Nat × List Nat × List Nat) (h : handle_uart_rx input regs = some r) :
    r.2.2.length = regs.length := by
  match input with
  | [] => injection h with h1; rw [← h1]
  | [c] => simp [handle_uart_rx, handle_frame, handle_read_cmd, handle_write_cmd] at h
  | [c, a] => simp [handle_uart_rx, handle_frame, handle_read_cmd, handle_write_cmd] at h
  | c :: a :: l :: rest =>
    by_cases h1 : a ≥ REGISTER_MAP_SIZE ∨ a + l > REGISTER_MAP_SIZE
    · by_cases hcr : c = CMD_READ
      · subst hcr
        match rest with
        | [] => simp [handle_uart_rx, handle_frame, handle_read_cmd, handle_write_cmd, h1] at h
        | x :: r2 =>
          rw [handle_reject_bounds_read a l x r2 regs h1] at h
          injection h with h3; rw [← h3]
      · by_cases hcw : c = CMD_WRITE
        · subst hcw
          by_cases hl : l ≤ 16
          · by_cases hr2 : l + 1 ≤ rest.length
            · rw [handle_reject_bounds_write a l rest regs h1 hl hr2] at h
              injection h with h3; rw [← h3]
            · simp [handle_uart_rx, handle_frame, handle_read_cmd, handle_write_cmd, h1, cmd_write_ne_read, hl, hr2] at h
          · rw [handle_reject_bounds_write_big a l rest regs h1 hl] at h
            injection h with h3; rw [← h3]
        · rw [handle_reject_bounds_other c a l rest regs h1 hcr hcw] at h
          injection h with h3; rw [← h3]
    · by_cases h2 : l > 16
      · by_cases hcr : c = CMD_READ
        · subst hcr
          match rest with
          | [] => simp [handle_uart_rx, handle_frame, handle_read_cmd, handle_write_cmd, h1, h2] at h
          | x :: r2 =>
            rw [handle_reject_len_read a l x r2 regs h1 h2] at h
            injection h with h3; rw [← h3]
        · rw [handle_reject_len_other c a l rest regs h1 h2 hcr] at h
          injection h with h3; rw [← h3]
      · by_cases hcr : c = CMD_READ
        · subst hcr
          match rest with
          | [] => simp [handle_uart_rx, handle_frame, handle_read_cmd, handle_write_cmd, h1, h2] at h
          | x :: r2 =>
            rw [handle_read_eq a l x r2 regs (by omega) (by omega) (by omega)] at h
            injection h with h3; rw [← h3]
        · by_cases hcw : c = CMD_WRITE
          · subst hcw
            by_cases hr2 : l + 1 ≤ rest.length
            · rw [handle_write_general a l rest regs (by omega) (by omega)
                (by omega) hr2] at h
              by_cases hc : calculate_checksum (CMD_WRITE :: a :: l :: rest.take l)
                  = rest.getD l 0
              · rw [if_pos hc, if_pos hc] at h
                injection h with h3
                rw [← h3]
                exact write_registers_length _ _ _
              · rw [if_neg hc, if_neg hc] at h
                injection h with h3; rw [← h3]
            · simp [handle_uart_rx, handle_frame, handle_read_cmd, handle_write_cmd, h1, h2, cmd_write_ne_read, hr2] at h
          · rw [handle_unknown_eq c a l rest regs h1 h2 hcr hcw] at h
            injection h with h3; rw [← h3]

theorem handle_read_preserves_regs (tl regs : List Nat)
    (r : List Nat × List Nat × List Nat)
    (h : handle_uart_rx (CMD_READ :: tl) regs = some r) : r.2.2 = regs := by
  match tl with
  | [] => simp [handle_uart_rx, handle_frame, handle_read_cmd, handle_write_cmd] at h
  | [a] => simp [handle_uart_rx, handle_frame, handle_read_cmd, handle_write_cmd] at h
  | a :: l :: rest =>
    by_cases h1 : a ≥ REGISTER_MAP_SIZE ∨ a + l > REGISTER_MAP_SIZE
    · match rest with
      | [] => simp [handle_uart_rx, handle_frame, handle_read_cmd, handle_write_cmd, h1] at h
      | x :: r2 =>
        rw [handle_reject_bounds_read a l x r2 regs h1] at h
        injection h with h3; rw [← h3]
    · by_cases h2 : l > 16
      · match rest with
        | [] => simp [handle_uart_rx, handle_frame, handle_read_cmd, handle_write_cmd, h1, h2] at h
        | x :: r2 =>
          rw [handle_reject_len_read a l x r2 regs h1 h2] at h
          injection h with h3; rw [← h3]
      · match rest with
        | [] => simp [handle_uart_rx, handle_frame, handle_read_cmd, handle_write_cmd, h1, h2] at h
        | x :: r2 =>
          rw [handle_read_eq a l x r2 regs (by omega) (by omega) (by omega)] at h
          injection h with h3; rw [← h3]

/-! ### Claims -/

/-- C1: For every WRITE frame (a command frame as defined by the protocol:
in-bounds address, length at most 16, payload of the declared length) whose
received checksum byte differs from checksum(cmd,addr,len) XOR
checksum(payload), the engine emits exactly the NACK frame
[addr, 0xFF, checksum(addr,0xFF)] and the register map is byte-for-byte
unchanged at every address. -/
theorem C1_write_checksum_mismatch_nack (addr len ck : Nat)
    (payload rest regs : List Nat) (hp : payload.length = len)
    (ha : addr < REGISTER_MAP_SIZE) (hb : addr + len ≤ REGISTER_MAP_SIZE)
    (hl : len ≤ 16)
    (hc : calculate_checksum (CMD_WRITE :: addr :: len :: payload) ≠ ck) :
    handle_uart_rx (CMD_WRITE :: addr :: len :: (payload ++ ck :: rest)) regs =
      some (rest, [addr, 255, calculate_checksum [addr, 255]], regs) := by
  rw [handle_write_eq addr len ck payload rest regs hp ha hb hl,
    if_neg hc, if_neg hc]

/-- C1 witness: a concrete write frame [2,0,1,7,0] whose checksum byte 0 is
wrong (the correct checksum is 4) is NACKed and leaves the map unchanged. -/
theorem C1_witness :
    handle_uart_rx [2, 0, 1, 7, 0] (List.replicate 46 0) =
      some ([], [0, 255, 255], List.replicate 46 0) := by
  have h := C1_write_checksum_mismatch_nack 0 1 0 [7] [] (List.replicate 46 0)
    rfl (by decide) (by decide) (by decide) (by decide)
  exact h

/-- C2: For every (addr, len) with addr + len <= MAP_SIZE and len <= 16,
processing an accepted WRITE frame for (addr, len, payload) followed by an
accepted READ frame for the same (addr, len) yields a read response whose
data bytes are exactly the written payload. -/
theorem C2_write_read_roundtrip (addr len : Nat) (payload regs : List Nat)
    (hp : payload.length = len) (ha : addr < REGISTER_MAP_SIZE)
    (hb : addr + len ≤ REGISTER_MAP_SIZE) (hl : len ≤ 16)
    (hr : regs.length = REGISTER_MAP_SIZE) :
    handle_uart_rx
        (CMD_WRITE :: addr :: len ::
          (payload ++ calculate_checksum (CMD_WRITE :: addr :: len :: payload) ::
            (CMD_READ :: addr :: len :: calculate_checksum [CMD_READ, addr, len] :: [])))
        regs =
      some (CMD_READ :: addr :: len :: calculate_checksum [CMD_READ, addr, len] :: [],
        [addr, 0, calculate_checksum [addr, 0]],
        write_registers regs addr payload) ∧
    handle_uart_rx
        (CMD_READ :: addr :: len :: calculate_checksum [CMD_READ, addr, len] :: [])
        (write_registers regs addr payload) =
      some ([],
        (addr :: len :: payload) ++ [calculate_checksum (addr :: len :: payload)],
        write_registers regs addr payload) := by
  have hround : read_registers (write_registers regs addr payload) addr len
      = payload := by
    have h := read_write_roundtrip payload regs addr (by rw [hp, hr]; omega)
    rw [hp] at h
    exact h
  constructor
  · rw [handle_write_eq addr len _ payload _ regs hp ha hb hl]
    simp
  · rw [handle_read_eq addr len _ _ _ ha hb hl, hround]
    simp

/-- C2 witness: the spec scenario. Writing [0x64,0,0,0] at addr 0x11 with a
correct checksum is ACKed with [0x11,0x00,0x11]; the subsequent read returns
[0x11,0x04,0x64,0,0,0,0x71]. -/
theorem C2_witness :
    handle_uart_rx [2, 17, 4, 100, 0, 0, 0, 115, 1, 17, 4, 20]
        (List.replicate 46 0) =
      some ([1, 17, 4, 20], [17, 0, 17],
        write_registers (List.replicate 46 0) 17 [100, 0, 0, 0]) ∧
    handle_uart_rx [1, 17, 4, 20]
        (write_registers (List.replicate 46 0) 17 [100, 0, 0, 0]) =
      some ([], [17, 4, 100, 0, 0, 0, 113],
        write_registers (List.replicate 46 0) 17 [100, 0, 0, 0]) := by
  have h := C2_write_read_roundtrip 17 4 [100, 0, 0, 0] (List.replicate 46 0)
    rfl (by decide) (by decide) (by decide) (by decide)
  exact h

/-- C5: For every READ frame with a bounds-valid header whose received
checksum byte differs from checksum(cmd,addr,len), the engine emits no
response bytes at all and leaves the register map unchanged. -/
theorem C5_read_checksum_mismatch_silent (addr len ck : Nat)
    (rest regs : List Nat) (ha : addr < REGISTER_MAP_SIZE)
    (hb : addr + len ≤ REGISTER_MAP_SIZE)
    (hc : calculate_checksum [CMD_READ, addr, len] ≠ ck) :
    handle_uart_rx (CMD_READ :: addr :: len :: ck :: rest) regs =
      some (rest, [], regs) := by
  by_cases hl : len ≤ 16
  · rw [handle_read_eq addr len ck rest regs ha hb hl, if_neg hc]
  · exact handle_reject_len_read addr len ck rest regs (by omega) (by omega)

/-- C5 witness: read frame [1,0,2,0] has wrong checksum (correct is 3); the
engine consumes it, emits nothing and leaves the map unchanged. -/
theorem C5_witness :
    handle_uart_rx [1, 0, 2, 0] (List.replicate 46 0) =
      some ([], [], List.replicate 46 0) := by
  have h := C5_read_checksum_mismatch_silent 0 2 0 [] (List.replicate 46 0)
    (by decide) (by decide) (by decide)
  exact h

/-- C6: checksum is the XOR fold of its byte sequence: checksum of the empty
sequence is 0, checksum(a ++ b) == checksum(a) XOR checksum(b), and checksum
is invariant under any permutation of its input. -/
theorem C6_checksum_xor_fold :
    calculate_checksum [] = 0 ∧
    (∀ a b : List Nat,
      calculate_checksum (a ++ b) =
        calculate_checksum a ^^^ calculate_checksum b) ∧
    (∀ a b : List Nat, a.Perm b →
      calculate_checksum a = calculate_checksum b) :=
  ⟨checksum_nil, checksum_append, fun _ _ h => checksum_perm h⟩

/-- C6 witness: concrete instances of the three conjuncts. -/
theorem C6_witness :
    calculate_checksum ([1, 2] ++ [3]) =
        calculate_checksum [1, 2] ^^^ calculate_checksum [3] ∧
    calculate_checksum [1, 2, 3] = calculate_checksum [3, 2, 1] :=
  ⟨C6_checksum_xor_fold.2.1 [1, 2] [3],
   C6_checksum_xor_fold.2.2 [1, 2, 3] [3, 2, 1] (by decide)⟩

/-- C7: For every addr < MAP_SIZE, a len == 0 frame with correct checksum is
legal: a READ with len == 0 emits exactly [addr, 0, checksum(addr,0)] with
empty payload, and a WRITE with len == 0 leaves every register unchanged yet
still emits the ACK [addr, 0x00, checksum(addr,0x00)]. -/
theorem C7_len_zero_frames (addr : Nat) (rest rest2 regs : List Nat)
    (ha : addr < REGISTER_MAP_SIZE) :
    handle_uart_rx
        (CMD_READ :: addr :: 0 :: calculate_checksum [CMD_READ, addr, 0] :: rest)
        regs =
      some (rest, [addr, 0, calculate_checksum [addr, 0]], regs) ∧
    handle_uart_rx
        (CMD_WRITE :: addr :: 0 :: calculate_checksum [CMD_WRITE, addr, 0] :: rest2)
        regs =
      some (rest2, [addr, 0, calculate_checksum [addr, 0]], regs) := by
  constructor
  · rw [handle_read_eq addr 0 _ rest regs ha (by omega) (by omega)]
    simp [read_registers]
  · have h := handle_write_eq addr 0 (calculate_checksum [CMD_WRITE, addr, 0])
      [] rest2 regs rfl ha (by omega) (by omega)
    simpa using h

/-- C7 witness: len 0 read and write at addr 3; both get response [3,0,3],
the map stays unchanged. -/
theorem C7_witness :
    handle_uart_rx [1, 3, 0, 2] (List.replicate 46 0) =
      some ([], [3, 0, 3], List.replicate 46 0) ∧
    handle_uart_rx [2, 3, 0, 1] (List.replicate 46 0) =
      some ([], [3, 0, 3], List.replicate 46 0) := by
  have h := C7_len_zero_frames 3 [] [] (List.replicate 46 0) (by decide)
  exact h

/-- C3: Every frame whose header fails the bounds checks (addr >= MAP_SIZE,
or addr + len > MAP_SIZE, or len > 16) is rejected before any register cell
is read or written: the map is unchanged and no response is emitted.  Among
otherwise-valid frames the boundary addr + len == MAP_SIZE is accepted while
addr + len == MAP_SIZE + 1 is rejected and never mutates the map. -/
theorem C3_header_validation :
    (∀ cmd addr len : Nat, ∀ rest regs : List Nat,
      (addr ≥ REGISTER_MAP_SIZE ∨ addr + len > REGISTER_MAP_SIZE ∨ len > 16) →
      len + 1 ≤ rest.length →
      ∃ rest2, handle_uart_rx (cmd :: addr :: len :: rest) regs =
        some (rest2, [], regs)) ∧
    (∀ addr len : Nat, ∀ payload rest regs : List Nat,
      payload.length = len → addr < REGISTER_MAP_SIZE →
      addr + len = REGISTER_MAP_SIZE → len ≤ 16 →
      handle_uart_rx (CMD_WRITE :: addr :: len ::
          (payload ++
            calculate_checksum (CMD_WRITE :: addr :: len :: payload) :: rest))
        regs =
        some (rest, [addr, 0, calculate_checksum [addr, 0]],
          write_registers regs addr payload)) ∧
    (∀ addr len : Nat, ∀ rest regs : List Nat,
      addr + len = REGISTER_MAP_SIZE + 1 → len + 1 ≤ rest.length →
      ∃ rest2, handle_uart_rx (CMD_WRITE :: addr :: len :: rest) regs =
        some (rest2, [], regs)) := by
  have reject : ∀ cmd addr len : Nat, ∀ rest regs : List Nat,
      (addr ≥ REGISTER_MAP_SIZE ∨ addr + len > REGISTER_MAP_SIZE ∨ len > 16) →
      len + 1 ≤ rest.length →
      ∃ rest2, handle_uart_rx (cmd :: addr :: len :: rest) regs =
        some (rest2, [], regs) := by
    intro cmd addr len rest regs hbad hr
    by_cases h1 : addr ≥ REGISTER_MAP_SIZE ∨ addr + len > REGISTER_MAP_SIZE
    · by_cases hcr : cmd = CMD_READ
      · subst hcr
        match rest with
        | [] => simp at hr
        | x :: r2 => exact ⟨r2, handle_reject_bounds_read addr len x r2 regs h1⟩
      · by_cases hcw : cmd = CMD_WRITE
        · subst hcw
          by_cases hl : len ≤ 16
          · exact ⟨rest.drop (len + 1),
              handle_reject_bounds_write addr len rest regs h1 hl hr⟩
          · exact ⟨rest, handle_reject_bounds_write_big addr len rest regs h1 hl⟩
        · exact ⟨rest, handle_reject_bounds_other cmd addr len rest regs h1 hcr hcw⟩
    · have h2 : len > 16 := by omega
      by_cases hcr : cmd = CMD_READ
      · subst hcr
        match rest with
        | [] => simp at hr
        | x :: r2 => exact ⟨r2, handle_reject_len_read addr len x r2 regs h1 h2⟩
      · exact ⟨rest, handle_reject_len_other cmd addr len rest regs h1 h2 hcr⟩
  refine ⟨reject, ?_, ?_⟩
  · intro addr len payload rest regs hp ha hsz hl
    rw [handle_write_eq addr len _ payload rest regs hp ha (by omega) hl]
    simp
  · intro addr len rest regs hsz hr
    exact reject CMD_WRITE addr len rest regs (by omega) hr

/-- C3 witness: the oversized read [1,50,0,...] is dropped with no response;
the boundary write addr 45 len 1 is accepted with an ACK; the write with
addr 45 len 2 (addr+len = 47 = MAP_SIZE+1) is rejected without mutation. -/
theorem C3_witness :
    (∃ rest2, handle_uart_rx [1, 50, 0, 51] (List.replicate 46 0) =
      some (rest2, [], List.replicate 46 0)) ∧
    handle_uart_rx [2, 45, 1, 9, 39] (List.replicate 46 0) =
      some ([], [45, 0, calculate_checksum [45, 0]],
        write_registers (List.replicate 46 0) 45 [9]) ∧
    (∃ rest2, handle_uart_rx [2, 45, 2, 9, 9, 47] (List.replicate 46 0) =
      some (rest2, [], List.replicate 46 0)) := by
  refine ⟨?_, ?_, ?_⟩
  · exact C3_header_validation.1 1 50 0 [51] (List.replicate 46 0)
      (by decide) (by decide)
  · have h := C3_header_validation.2.1 45 1 [9] [] (List.replicate 46 0)
      rfl (by decide) (by decide) (by decide)
    exact h
  · exact C3_header_validation.2.2 45 2 [9, 9, 47] (List.replicate 46 0)
      (by decide) (by decide)

/-- C9: an accepted WRITE frame for (addr, len) changes no register at any
address outside [addr, addr+len) (the same holds for a rejected one, whose
map is untouched everywhere), and processing any READ frame, accepted or
rejected, changes no register at all. -/
theorem C9_mutation_locality :
    (∀ addr len ck : Nat, ∀ payload rest regs : List Nat,
      ∀ r : List Nat × List Nat × List Nat,
      payload.length = len → addr < REGISTER_MAP_SIZE →
      addr + len ≤ REGISTER_MAP_SIZE → len ≤ 16 →
      handle_uart_rx (CMD_WRITE :: addr :: len :: (payload ++ ck :: rest)) regs =
        some r →
      ∀ j, j < addr ∨ addr + len ≤ j → r.2.2.getD j 0 = regs.getD j 0) ∧
    (∀ tl regs : List Nat, ∀ r : List Nat × List Nat × List Nat,
      handle_uart_rx (CMD_READ :: tl) regs = some r → r.2.2 = regs) := by
  constructor
  · intro addr len ck payload rest regs r hp ha hb hl h j hj
    rw [handle_write_eq addr len ck payload rest regs hp ha hb hl] at h
    by_cases hc : calculate_checksum (CMD_WRITE :: addr :: len :: payload) = ck
    · rw [if_pos hc, if_pos hc] at h
      injection h with h3
      have h4 := congrArg (fun t : List Nat × List Nat × List Nat => t.2.2) h3
      simp only at h4
      rw [← h4]
      apply write_registers_getD_outside
      rw [hp]
      exact hj
    · rw [if_neg hc, if_neg hc] at h
      injection h with h3
      have h4 := congrArg (fun t : List Nat × List Nat × List Nat => t.2.2) h3
      simp only at h4
      rw [← h4]
  · exact handle_read_preserves_regs

/-- C9 witness: the accepted write [2,1,1,9,11] at addr 1 leaves cell 0 and
cell 2 unchanged; the accepted read [1,0,1,0] leaves the whole map unchanged. -/
theorem C9_witness :
    (write_registers (List.replicate 46 0) 1 [9]).getD 0 0 =
        (List.replicate 46 0).getD 0 0 ∧
    (([], [0, 1, 0, 1], List.replicate 46 0) :
        List Nat × List Nat × List Nat).2.2 = List.replicate 46 0 := by
  constructor
  · have h := C9_mutation_locality.1 1 1 11 [9] [] (List.replicate 46 0)
      ([], [1, 0, 1], write_registers (List.replicate 46 0) 1 [9])
      rfl (by decide) (by decide) (by decide) (by decide) 0 (Or.inl (by decide))
    exact h
  · exact C9_mutation_locality.2 [0, 1, 0] (List.replicate 46 0)
      ([], [0, 1, 0, 1], List.replicate 46 0) (by decide)

/-- C10: the header-validation guards imply that every subsequent access is
in bounds: each payload index is below 17 (the data_buffer size) and every
register index addr + i with i < len is below REGISTER_MAP_SIZE; and one
invocation of handle_uart_rx never changes the size of the register map
(no out-of-bounds cell is ever created or dropped). -/
theorem C10_access_bounds :
    (∀ addr len : Nat, header_checks addr len →
      ∀ i, i < len → addr + i < REGISTER_MAP_SIZE ∧ i < 17) ∧
    (∀ input regs : List Nat, ∀ r : List Nat × List Nat × List Nat,
      handle_uart_rx input regs = some r → r.2.2.length = regs.length) := by
  constructor
  · intro addr len h i hi
    simp only [header_checks] at h
    omega
  · exact handle_preserves_length

/-- C10 witness: guard instance at addr 30, len 16, i 15; length preservation
for the accepted write [2,1,1,9,11]. -/
theorem C10_witness :
    (30 + 15 < REGISTER_MAP_SIZE ∧ 15 < 17) ∧
    (write_registers (List.replicate 46 0) 1 [9]).length =
        (List.replicate 46 0).length := by
  constructor
  · exact C10_access_bounds.1 30 16 ⟨by decide, by decide⟩ 15 (by decide)
  · have h := C10_access_bounds.2 [2, 1, 1, 9, 11] (List.replicate 46 0)
      ([], [1, 0, 1], write_registers (List.replicate 46 0) 1 [9]) (by decide)
    exact h


/-! ### Little-endian codec arithmetic -/

theorem mod_two_of_or_right_even (q x a : Nat)
    (hq : q % 2 = 1 ↔ (a % 2 = 1 ∨ x % 2 = 1)) (hx : x % 2 = 0) :
    q % 2 = a % 2 := by
  rcases Nat.mod_two_eq_zero_or_one a with h2 | h2
  · rcases Nat.mod_two_eq_zero_or_one q with h1 | h1
    · rw [h1, h2]
    · rcases hq.mp h1 with hc | hc
      · rw [h2] at hc; exact absurd hc (by omega)
      · rw [hx] at hc; exact absurd hc (by omega)
  · rw [hq.mpr (Or.inl h2), h2]

theorem eq_add_two_mul_of_div_mod (q a c : Nat) (h1 : q / 2 = a / 2 + c)
    (h2 : q % 2 = a % 2) : q = a + 2 * c := by
  omega

theorem lor_shift_eq_add (k a b : Nat) (h : a < 2 ^ k) :
    a ||| (b <<< k) = a + b * 2 ^ k := by
  induction k generalizing a b with
  | zero =>
    have ha : a = 0 := by rw [Nat.pow_zero] at h; omega
    subst ha
    rw [Nat.zero_or, Nat.shiftLeft_eq, Nat.pow_zero, Nat.mul_one, Nat.zero_add]
  | succ k ih =>
    have hp : 2 ^ (k + 1) = 2 * 2 ^ k := by rw [Nat.pow_succ]; ring
    have hs : b <<< (k + 1) = (b <<< k) * 2 := by
      rw [Nat.shiftLeft_eq, Nat.shiftLeft_eq, Nat.pow_succ]; ring
    have hmod2 : b <<< (k + 1) % 2 = 0 := by rw [hs]; exact Nat.mul_mod_left _ 2
    have ih2 : a / 2 ||| b <<< k = a / 2 + b * 2 ^ k := by
      apply ih
      have h2k : 0 < 2 ^ k := Nat.pos_pow_of_pos k (by omega)
      omega
    have hdiv : (a ||| b <<< (k + 1)) / 2 = a / 2 + b * 2 ^ k := by
      rw [Nat.or_div_two, hs, Nat.mul_div_cancel _ (by omega), ih2]
    have hmod : (a ||| b <<< (k + 1)) % 2 = a % 2 :=
      mod_two_of_or_right_even _ _ _ Nat.or_mod_two_eq_one hmod2
    have hglue := eq_add_two_mul_of_div_mod _ _ _ hdiv hmod
    rw [hglue, hp]
    ring

theorem and_255_eq_mod (x : Nat) : x &&& 255 = x % 256 := by
  have h := Nat.and_pow_two_sub_one_eq_mod x 8
  norm_num at h
  exact h

theorem shiftRight_8 (v : Nat) : v >>> 8 = v / 256 := by
  rw [Nat.shiftRight_eq_div_pow]

theorem shiftRight_16 (v : Nat) : v >>> 16 = v / 65536 := by
  rw [Nat.shiftRight_eq_div_pow]

theorem shiftRight_24 (v : Nat) : v >>> 24 = v / 16777216 := by
  rw [Nat.shiftRight_eq_div_pow]

/-- C8: the 16-bit and 32-bit register codecs are byte-exact little-endian:
WRITE_U16_REGISTER stores the low byte of v at addr and the high byte at
addr+1 (and WRITE_U32_REGISTER the four bytes lowest to highest), and the
matching READ after the WRITE at the same addr returns exactly v. -/
theorem C8_little_endian_codecs :
    (∀ regs : List Nat, ∀ addr v : Nat, addr + 2 ≤ regs.length → v < 2 ^ 16 →
      (WRITE_U16_REGISTER regs addr v).getD addr 0 = v % 256 ∧
      (WRITE_U16_REGISTER regs addr v).getD (addr + 1) 0 = v / 256 ∧
      READ_U16_REGISTER (WRITE_U16_REGISTER regs addr v) addr = v) ∧
    (∀ regs : List Nat, ∀ addr v : Nat, addr + 4 ≤ regs.length → v < 2 ^ 32 →
      (WRITE_U32_REGISTER regs addr v).getD addr 0 = v % 256 ∧
      (WRITE_U32_REGISTER regs addr v).getD (addr + 1) 0 = v / 256 % 256 ∧
      (WRITE_U32_REGISTER regs addr v).getD (addr + 2) 0 = v / 65536 % 256 ∧
      (WRITE_U32_REGISTER regs addr v).getD (addr + 3) 0 = v / 16777216 ∧
      READ_U32_REGISTER (WRITE_U32_REGISTER regs addr v) addr = v) := by
  have h256 : (2 : Nat) ^ 8 = 256 := by norm_num
  have h65536 : (2 : Nat) ^ 16 = 65536 := by norm_num
  have h2p24 : (2 : Nat) ^ 24 = 16777216 := by norm_num
  have h2p32 : (2 : Nat) ^ 32 = 4294967296 := by norm_num
  constructor
  · intro regs addr v hlen hv
    have hv' : v < 65536 := by omega
    have e0 : (WRITE_U16_REGISTER regs addr v).getD addr 0 = v % 256 := by
      show ((regs.set addr (v &&& 255)).set (addr + 1)
          ((v >>> 8) &&& 255)).getD addr 0 = v % 256
      rw [getD_set_ne (regs.set addr (v &&& 255)) (addr + 1) addr
          ((v >>> 8) &&& 255) (by omega),
        getD_set_self regs addr (v &&& 255) (by omega), and_255_eq_mod]
    have e1 : (WRITE_U16_REGISTER regs addr v).getD (addr + 1) 0 = v / 256 := by
      show ((regs.set addr (v &&& 255)).set (addr + 1)
          ((v >>> 8) &&& 255)).getD (addr + 1) 0 = v / 256
      rw [getD_set_self (regs.set addr (v &&& 255)) (addr + 1)
          ((v >>> 8) &&& 255) (by simp only [List.length_set]; omega),
        and_255_eq_mod, shiftRight_8]
      omega
    refine ⟨e0, e1, ?_⟩
    show (WRITE_U16_REGISTER regs addr v).getD addr 0 |||
        ((WRITE_U16_REGISTER regs addr v).getD (addr + 1) 0 <<< 8) = v
    rw [e0, e1, lor_shift_eq_add 8 (v % 256) (v / 256) (by omega)]
    omega
  · intro regs addr v hlen hv
    have hv' : v < 4294967296 := by omega
    have e0 : (WRITE_U32_REGISTER regs addr v).getD addr 0 = v % 256 := by
      show ((((regs.set addr (v &&& 255)).set (addr + 1) ((v >>> 8) &&& 255)).set
          (addr + 2) ((v >>> 16) &&& 255)).set (addr + 3)
          ((v >>> 24) &&& 255)).getD addr 0 = v % 256
      rw [getD_set_ne (((regs.set addr (v &&& 255)).set (addr + 1)
            ((v >>> 8) &&& 255)).set (addr + 2) ((v >>> 16) &&& 255))
          (addr + 3) addr ((v >>> 24) &&& 255) (by omega),
        getD_set_ne ((regs.set addr (v &&& 255)).set (addr + 1)
            ((v >>> 8) &&& 255)) (addr + 2) addr ((v >>> 16) &&& 255) (by omega),
        getD_set_ne (regs.set addr (v &&& 255)) (addr + 1) addr
          ((v >>> 8) &&& 255) (by omega),
        getD_set_self regs addr (v &&& 255) (by omega), and_255_eq_mod]
    have e1 : (WRITE_U32_REGISTER regs addr v).getD (addr + 1) 0
        = v / 256 % 256 := by
      show ((((regs.set addr (v &&& 255)).set (addr + 1) ((v >>> 8) &&& 255)).set
          (addr + 2) ((v >>> 16) &&& 255)).set (addr + 3)
          ((v >>> 24) &&& 255)).getD (addr + 1) 0 = v / 256 % 256
      rw [getD_set_ne (((regs.set addr (v &&& 255)).set (addr + 1)
            ((v >>> 8) &&& 255)).set (addr + 2) ((v >>> 16) &&& 255))
          (addr + 3) (addr + 1) ((v >>> 24) &&& 255) (by omega),
        getD_set_ne ((regs.set addr (v &&& 255)).set (addr + 1)
            ((v >>> 8) &&& 255)) (addr + 2) (addr + 1)
          ((v >>> 16) &&& 255) (by omega),
        getD_set_self (regs.set addr (v &&& 255)) (addr + 1)
          ((v >>> 8) &&& 255) (by simp only [List.length_set]; omega),
        and_255_eq_mod, shiftRight_8]
    have e2 : (WRITE_U32_REGISTER regs addr v).getD (addr + 2) 0
        = v / 65536 % 256 := by
      show ((((regs.set addr (v &&& 255)).set (addr + 1) ((v >>> 8) &&& 255)).set
          (addr + 2) ((v >>> 16) &&& 255)).set (addr + 3)
          ((v >>> 24) &&& 255)).getD (addr + 2) 0 = v / 65536 % 256
      rw [getD_set_ne (((regs.set addr (v &&& 255)).set (addr + 1)
            ((v >>> 8) &&& 255)).set (addr + 2) ((v >>> 16) &&& 255))
          (addr + 3) (addr + 2) ((v >>> 24) &&& 255) (by omega),
        getD_set_self ((regs.set addr (v &&& 255)).set (addr + 1)
            ((v >>> 8) &&& 255)) (addr + 2) ((v >>> 16) &&& 255)
          (by simp only [List.length_set]; omega),
        and_255_eq_mod, shiftRight_16]
    have e3 : (WRITE_U32_REGISTER regs addr v).getD (addr + 3) 0
        = v / 16777216 := by
      show ((((regs.set addr (v &&& 255)).set (addr + 1) ((v >>> 8) &&& 255)).set
          (addr + 2) ((v >>> 16) &&& 255)).set (addr + 3)
          ((v >>> 24) &&& 255)).getD (addr + 3) 0 = v / 16777216
      rw [getD_set_self (((regs.set addr (v &&& 255)).set (addr + 1)
            ((v >>> 8) &&& 255)).set (addr + 2) ((v >>> 16) &&& 255))
          (addr + 3) ((v >>> 24) &&& 255)
          (by simp only [List.length_set]; omega),
        and_255_eq_mod, shiftRight_24]
      omega
    refine ⟨e0, e1, e2, e3, ?_⟩
    show (WRITE_U32_REGISTER regs addr v).getD addr 0 |||
        ((WRITE_U32_REGISTER regs addr v).getD (addr + 1) 0 <<< 8) |||
        ((WRITE_U32_REGISTER regs addr v).getD (addr + 2) 0 <<< 16) |||
        ((WRITE_U32_REGISTER regs addr v).getD (addr + 3) 0 <<< 24) = v
    rw [e0, e1, e2, e3,
      lor_shift_eq_add 8 (v % 256) (v / 256 % 256) (by omega),
      lor_shift_eq_add 16 (v % 256 + v / 256 % 256 * 2 ^ 8)
        (v / 65536 % 256) (by omega),
      lor_shift_eq_add 24
        (v % 256 + v / 256 % 256 * 2 ^ 8 + v / 65536 % 256 * 2 ^ 16)
        (v / 16777216) (by omega)]
    omega

/-- C8 witness: v = 0x1234 at addr 0 stores bytes 0x34, 0x12 and reads back
0x1234; v = 0x0A0B0C0D stores bytes 0x0D,0x0C,0x0B,0x0A and reads back. -/
theorem C8_witness :
    ((WRITE_U16_REGISTER (List.replicate 46 0) 0 4660).getD 0 0 = 4660 % 256 ∧
     (WRITE_U16_REGISTER (List.replicate 46 0) 0 4660).getD (0 + 1) 0 =
       4660 / 256 ∧
     READ_U16_REGISTER (WRITE_U16_REGISTER (List.replicate 46 0) 0 4660) 0 =
       4660) ∧
    ((WRITE_U32_REGISTER (List.replicate 46 0) 0 168496141).getD 0 0 =
       168496141 % 256 ∧
     (WRITE_U32_REGISTER (List.replicate 46 0) 0 168496141).getD (0 + 1) 0 =
       168496141 / 256 % 256 ∧
     (WRITE_U32_REGISTER (List.replicate 46 0) 0 168496141).getD (0 + 2) 0 =
       168496141 / 65536 % 256 ∧
     (WRITE_U32_REGISTER (List.replicate 46 0) 0 168496141).getD (0 + 3) 0 =
       168496141 / 16777216 ∧
     READ_U32_REGISTER (WRITE_U32_REGISTER (List.replicate 46 0) 0 168496141) 0 =
       168496141) :=
  ⟨C8_little_endian_codecs.1 (List.replicate 46 0) 0 4660 (by decide) (by decide),
   C8_little_endian_codecs.2 (List.replicate 46 0) 0 168496141 (by decide)
     (by norm_num)⟩

/-! ### C4 -/

theorem checksum_flip_ne (l : List Nat) (i k : Nat) (h : i < l.length) :
    calculate_checksum (flip_byte l i k) ≠ calculate_checksum l := by
  rw [checksum_flip l i k h]
  exact xor_two_pow_ne _ k

theorem read_cmd_flip (k : Nat) (hk : k < 8) :
    CMD_READ ^^^ 2 ^ k ≠ CMD_READ ∧ CMD_READ ^^^ 2 ^ k ≠ CMD_WRITE := by
  interval_cases k <;> exact ⟨by decide, by decide⟩

theorem write_cmd_flip (k : Nat) (hk : k < 8) :
    CMD_WRITE ^^^ 2 ^ k ≠ CMD_READ ∧ CMD_WRITE ^^^ 2 ^ k ≠ CMD_WRITE := by
  interval_cases k <;> exact ⟨by decide, by decide⟩

/-- C4 counterexample: the claim "flipping any single bit of the frame (other
than in a way that cancels out under XOR) causes rejection" is false.  The
write frame [2,0,2,2,5,7] is valid and accepted (ACK [0,0,0], two bytes
written).  Flipping the single bit 1 of its LEN byte (position 2) yields
[2,0,0,2,5,7]; the engine parses it as a len-0 write whose checksum byte
(the first old payload byte, 0x02) again matches, so it is accepted and
ACKed [0,0,0] rather than rejected. -/
theorem C4_counterexample :
    handle_uart_rx [2, 0, 2, 2, 5, 7] (List.replicate 46 0) =
      some ([], [0, 0, 0], ((List.replicate 46 0).set 0 2).set 1 5) ∧
    flip_byte [2, 0, 2, 2, 5, 7] 2 1 = [2, 0, 0, 2, 5, 7] ∧
    handle_uart_rx [2, 0, 0, 2, 5, 7] (List.replicate 46 0) =
      some ([5, 7], [0, 0, 0], List.replicate 46 0) := by
  exact ⟨by decide, by decide, by decide⟩

/-- C4 (amended): for command frames with a bounds-valid header, the received
checksum byte equaling the XOR checksum of the frame bytes excluding the
checksum is necessary and sufficient for acceptance (READ: data response;
WRITE: map written and ACK; otherwise silent drop resp. NACK).  Flipping any
single bit of a READ frame, or any single bit of a WRITE frame outside its
LEN byte (position 2), causes rejection with the map unchanged; a flip of a
WRITE frame's LEN byte may instead be accepted as a different frame (see the
counterexample). -/
theorem C4_checksum_acceptance :
    (∀ addr len ck : Nat, ∀ rest regs : List Nat,
      addr < REGISTER_MAP_SIZE → addr + len ≤ REGISTER_MAP_SIZE → len ≤ 16 →
      handle_uart_rx (CMD_READ :: addr :: len :: ck :: rest) regs =
        some (rest,
          if calculate_checksum [CMD_READ, addr, len] = ck then
            (addr :: len :: read_registers regs addr len) ++
              [calculate_checksum (addr :: len :: read_registers regs addr len)]
          else [], regs)) ∧
    (∀ addr len ck : Nat, ∀ payload rest regs : List Nat,
      payload.length = len → addr < REGISTER_MAP_SIZE →
      addr + len ≤ REGISTER_MAP_SIZE → len ≤ 16 →
      handle_uart_rx (CMD_WRITE :: addr :: len :: (payload ++ ck :: rest)) regs =
        some (rest,
          if calculate_checksum (CMD_WRITE :: addr :: len :: payload) = ck then
            [addr, 0, calculate_checksum [addr, 0]]
          else [addr, 255, calculate_checksum [addr, 255]],
          if calculate_checksum (CMD_WRITE :: addr :: len :: payload) = ck then
            write_registers regs addr payload
          else regs)) ∧
    (∀ addr len p k : Nat, ∀ regs : List Nat,
      addr < REGISTER_MAP_SIZE → addr + len ≤ REGISTER_MAP_SIZE → len ≤ 16 →
      p < 4 → k < 8 →
      ∃ rest2 out,
        handle_uart_rx
          (flip_byte
            [CMD_READ, addr, len, calculate_checksum [CMD_READ, addr, len]] p k)
          regs = some (rest2, out, regs) ∧ rejection_out out) ∧
    (∀ addr len p k : Nat, ∀ payload regs : List Nat,
      payload.length = len → addr < REGISTER_MAP_SIZE →
      addr + len ≤ REGISTER_MAP_SIZE → len ≤ 16 →
      p < 4 + len → p ≠ 2 → k < 8 →
      ∃ rest2 out,
        handle_uart_rx
          (flip_byte (CMD_WRITE :: addr :: len ::
            (payload ++
              [calculate_checksum (CMD_WRITE :: addr :: len :: payload)])) p k)
          regs = some (rest2, out, regs) ∧ rejection_out out) := by
  refine ⟨handle_read_eq, handle_write_eq, ?_, ?_⟩
  · -- READ frame bit flips
    intro addr len p k regs ha hb hl hp hk
    interval_cases p
    · -- flip in the CMD byte: unknown command, dropped
      obtain ⟨hnr, hnw⟩ := read_cmd_flip k hk
      refine ⟨[calculate_checksum [CMD_READ, addr, len]], [], ?_, Or.inl rfl⟩
      rw [show flip_byte
          [CMD_READ, addr, len, calculate_checksum [CMD_READ, addr, len]] 0 k =
          (CMD_READ ^^^ 2 ^ k) :: addr :: len ::
            [calculate_checksum [CMD_READ, addr, len]] from rfl]
      exact handle_unknown_eq _ addr len _ regs (by omega) (by omega) hnr hnw
    · -- flip in the ADDR byte
      rw [show flip_byte
          [CMD_READ, addr, len, calculate_checksum [CMD_READ, addr, len]] 1 k =
          CMD_READ :: (addr ^^^ 2 ^ k) :: len ::
            [calculate_checksum [CMD_READ, addr, len]] from rfl]
      by_cases hbound : (addr ^^^ 2 ^ k) ≥ REGISTER_MAP_SIZE ∨
          (addr ^^^ 2 ^ k) + len > REGISTER_MAP_SIZE
      · exact ⟨[], [], handle_reject_bounds_read _ len _ [] regs hbound,
          Or.inl rfl⟩
      · have hne : calculate_checksum [CMD_READ, addr ^^^ 2 ^ k, len] ≠
            calculate_checksum [CMD_READ, addr, len] := by
          have h0 := checksum_flip_ne [CMD_READ, addr, len] 1 k (by simp)
          rw [show flip_byte [CMD_READ, addr, len] 1 k =
            [CMD_READ, addr ^^^ 2 ^ k, len] from rfl] at h0
          exact h0
        refine ⟨[], [], ?_, Or.inl rfl⟩
        rw [handle_read_eq (addr ^^^ 2 ^ k) len _ [] regs (by omega) (by omega)
          hl, if_neg hne]
    · -- flip in the LEN byte
      rw [show flip_byte
          [CMD_READ, addr, len, calculate_checksum [CMD_READ, addr, len]] 2 k =
          CMD_READ :: addr :: (len ^^^ 2 ^ k) ::
            [calculate_checksum [CMD_READ, addr, len]] from rfl]
      by_cases hbound : addr ≥ REGISTER_MAP_SIZE ∨
          addr + (len ^^^ 2 ^ k) > REGISTER_MAP_SIZE
      · exact ⟨[], [], handle_reject_bounds_read addr _ _ [] regs hbound,
          Or.inl rfl⟩
      · by_cases hl2 : len ^^^ 2 ^ k > 16
        · exact ⟨[], [], handle_reject_len_read addr _ _ [] regs hbound hl2,
            Or.inl rfl⟩
        · have hne : calculate_checksum [CMD_READ, addr, len ^^^ 2 ^ k] ≠
              calculate_checksum [CMD_READ, addr, len] := by
            have h0 := checksum_flip_ne [CMD_READ, addr, len] 2 k (by simp)
            rw [show flip_byte [CMD_READ, addr, len] 2 k =
              [CMD_READ, addr, len ^^^ 2 ^ k] from rfl] at h0
            exact h0
          refine ⟨[], [], ?_, Or.inl rfl⟩
          rw [handle_read_eq addr (len ^^^ 2 ^ k) _ [] regs (by omega)
            (by omega) (by omega), if_neg hne]
    · -- flip in the checksum byte
      rw [show flip_byte
          [CMD_READ, addr, len, calculate_checksum [CMD_READ, addr, len]] 3 k =
          CMD_READ :: addr :: len ::
            [calculate_checksum [CMD_READ, addr, len] ^^^ 2 ^ k] from rfl]
      have hne : calculate_checksum [CMD_READ, addr, len] ≠
          calculate_checksum [CMD_READ, addr, len] ^^^ 2 ^ k :=
        Ne.symm (xor_two_pow_ne _ k)
      refine ⟨[], [], ?_, Or.inl rfl⟩
      rw [handle_read_eq addr len _ [] regs ha hb hl, if_neg hne]
  · -- WRITE frame bit flips (outside the LEN byte)
    intro addr len p k payload regs hplen ha hb hl hp hpne hk
    rcases p with _ | _ | _ | n
    · -- flip in the CMD byte: unknown command, dropped
      obtain ⟨hnr, hnw⟩ := write_cmd_flip k hk
      refine ⟨payload ++ [calculate_checksum (CMD_WRITE :: addr :: len :: payload)],
        [], ?_, Or.inl rfl⟩
      rw [flip_byte_cons_zero]
      exact handle_unknown_eq _ addr len _ regs (by omega) (by omega) hnr hnw
    · -- flip in the ADDR byte
      rw [show flip_byte (CMD_WRITE :: addr :: len ::
          (payload ++
            [calculate_checksum (CMD_WRITE :: addr :: len :: payload)])) 1 k =
          CMD_WRITE :: (addr ^^^ 2 ^ k) :: len ::
          (payload ++
            [calculate_checksum (CMD_WRITE :: addr :: len :: payload)]) from rfl]
      by_cases hbound : (addr ^^^ 2 ^ k) ≥ REGISTER_MAP_SIZE ∨
          (addr ^^^ 2 ^ k) + len > REGISTER_MAP_SIZE
      · have hr : len + 1 ≤
            (payload ++
              [calculate_checksum (CMD_WRITE :: addr :: len :: payload)]).length := by
          simp [hplen]
        exact ⟨_, [], handle_reject_bounds_write _ len _ regs hbound hl hr,
          Or.inl rfl⟩
      · have hne : calculate_checksum
            (CMD_WRITE :: (addr ^^^ 2 ^ k) :: len :: payload) ≠
            calculate_checksum (CMD_WRITE :: addr :: len :: payload) := by
          have h0 := checksum_flip_ne (CMD_WRITE :: addr :: len :: payload) 1 k
            (by simp only [List.length_cons]; omega)
          rw [show flip_byte (CMD_WRITE :: addr :: len :: payload) 1 k =
            CMD_WRITE :: (addr ^^^ 2 ^ k) :: len :: payload from rfl] at h0
          exact h0
        refine ⟨[], [addr ^^^ 2 ^ k, 255,
          calculate_checksum [addr ^^^ 2 ^ k, 255]], ?_, Or.inr rfl⟩
        rw [handle_write_eq (addr ^^^ 2 ^ k) len _ payload [] regs hplen
          (by omega) (by omega) hl, if_neg hne, if_neg hne]
    · -- the LEN byte is excluded
      exact absurd rfl hpne
    · -- flip in the payload or in the checksum byte
      rw [show flip_byte (CMD_WRITE :: addr :: len ::
          (payload ++
            [calculate_checksum (CMD_WRITE :: addr :: len :: payload)]))
          (n + 1 + 1 + 1) k =
          CMD_WRITE :: addr :: len :: flip_byte
            (payload ++
              [calculate_checksum (CMD_WRITE :: addr :: len :: payload)]) n k
          from rfl]
      by_cases hn : n < payload.length
      · -- payload byte flip: checksum mismatch, NACK, map untouched
        rw [flip_byte_append_left payload _ n k hn]
        have hplen2 : (flip_byte payload n k).length = len := by
          rw [flip_byte_length, hplen]
        have hne : calculate_checksum
            (CMD_WRITE :: addr :: len :: flip_byte payload n k) ≠
            calculate_checksum (CMD_WRITE :: addr :: len :: payload) := by
          have h0 := checksum_flip_ne (CMD_WRITE :: addr :: len :: payload)
            (n + 1 + 1 + 1) k (by simp only [List.length_cons]; omega)
          rw [show flip_byte (CMD_WRITE :: addr :: len :: payload)
            (n + 1 + 1 + 1) k =
            CMD_WRITE :: addr :: len :: flip_byte payload n k from rfl] at h0
          exact h0
        refine ⟨[], [addr, 255, calculate_checksum [addr, 255]], ?_, Or.inr rfl⟩
        rw [handle_write_eq addr len _ (flip_byte payload n k) [] regs hplen2
          ha hb hl, if_neg hne, if_neg hne]
      · -- checksum byte flip: mismatch, NACK, map untouched
        have hnl : n = payload.length := by omega
        have hck : flip_byte
            (payload ++
              [calculate_checksum (CMD_WRITE :: addr :: len :: payload)]) n k =
            payload ++
              [calculate_checksum (CMD_WRITE :: addr :: len :: payload) ^^^
                2 ^ k] := by
          rw [hnl]
          exact flip_byte_append_ck payload _ k
        rw [hck]
        have hne : calculate_checksum (CMD_WRITE :: addr :: len :: payload) ≠
            calculate_checksum (CMD_WRITE :: addr :: len :: payload) ^^^ 2 ^ k :=
          Ne.symm (xor_two_pow_ne _ k)
        refine ⟨[], [addr, 255, calculate_checksum [addr, 255]], ?_, Or.inr rfl⟩
        rw [handle_write_eq addr len _ payload [] regs hplen ha hb hl,
          if_neg hne, if_neg hne]

/-- C4 witness: flipping bit 0 of the first payload byte of the valid write
frame [2,0,1,9,10] is rejected: the engine emits a NACK and the map is
unchanged. -/
theorem C4_witness :
    ∃ rest2 out,
      handle_uart_rx
        (flip_byte (CMD_WRITE :: 0 :: 1 ::
          ([9] ++ [calculate_checksum (CMD_WRITE :: 0 :: 1 :: [9])])) 3 0)
        (List.replicate 46 0) =
        some (rest2, out, List.replicate 46 0) ∧ rejection_out out := by
  have h := C4_checksum_acceptance.2.2.2 0 1 3 0 [9] (List.replicate 46 0)
    rfl (by decide) (by decide) (by decide) (by decide) (by decide) (by decide)
  exact h
